import Mathlib

/-!
Verification of the subject-line parser and NZB utilities of the
`javi11/nzbparser` Go repository.

The development shallowly embeds the Go sources:

* `src/subject.go`   — `ParseSubject` and its regular-expression passes
* `src/nzbparser.go` — `ScanNzbFile` and `MakeUnique`

Strings are processed as `List Char`; the Go `regexp` patterns (RE2 with
leftmost-first, Perl-style submatch semantics) are compiled by hand into
deterministic backtracking scanners, following the preference order the
engine uses (lazy `.*?` grows last, greedy quantifiers shrink last,
alternatives are tried left to right).  Go machine integers that can only
hold digit-string values are modelled as `Nat`, with `strconv.Atoi`'s
overflow clamping made explicit; XML-sourced integers are modelled as `Int`.
-/

namespace Nzbparser

/-! ## Character helpers -/

/-- Characters accepted by Go's `unicode.IsSpace` (used by `strings.TrimSpace`). -/
def isGoSpace (c : Char) : Bool :=
  c = '\t' || c = '\n' || c = (Char.ofNat 11) || c = (Char.ofNat 12) || c = '\r' || c = ' ' ||
  c = (Char.ofNat 0x85) || c = (Char.ofNat 0xA0) || c = (Char.ofNat 0x1680) ||
  (0x2000 ≤ c.toNat && c.toNat ≤ 0x200A) ||
  c = (Char.ofNat 0x2028) || c = (Char.ofNat 0x2029) || c = (Char.ofNat 0x202F) ||
  c = (Char.ofNat 0x205F) || c = (Char.ofNat 0x3000)

/-- ASCII decimal digit, the RE2 `\d` class. -/
def isDigitCh (c : Char) : Bool := '0' ≤ c && c ≤ '9'

/-- Case folding used by RE2's `(?i)` flag, restricted to the orbits that can
meet the (all lower-case ASCII) literals appearing in the patterns of
`src/subject.go`: ASCII letters, plus the two non-ASCII characters whose
simple case-folding orbit contains an ASCII letter (ſ U+017F folds with `s`,
KELVIN SIGN U+212A folds with `k`).  `strings.EqualFold` uses the same
folding. -/
def foldChar (c : Char) : Char :=
  if 'A' ≤ c && c ≤ 'Z' then Char.ofNat (c.toNat + 32)
  else if c = Char.ofNat 0x17F then 's'
  else if c = Char.ofNat 0x212A then 'k'
  else c

/-- Go's `strings.ToLower`, restricted to the code points whose simple
lower-case mapping is an ASCII letter (ASCII `A`-`Z`, KELVIN SIGN U+212A ↦ `k`,
LATIN CAPITAL LETTER I WITH DOT ABOVE U+0130 ↦ `i`); all other characters are
left unchanged, as in Go for the characters that can reach the ASCII-keyed
extension tables of `src/subject.go`. -/
def goLowerChar (c : Char) : Char :=
  if 'A' ≤ c && c ≤ 'Z' then Char.ofNat (c.toNat + 32)
  else if c = Char.ofNat 0x212A then 'k'
  else if c = Char.ofNat 0x130 then 'i'
  else c

def goToLower (cs : List Char) : List Char := cs.map goLowerChar

/-- Go's `strings.EqualFold` on rune lists. -/
def eqFoldList (a b : List Char) : Bool :=
  a.map foldChar = b.map foldChar

/-- Go's `strings.TrimSpace`. -/
def trimSpace (cs : List Char) : List Char :=
  ((cs.dropWhile isGoSpace).reverse.dropWhile isGoSpace).reverse

/-- Go's `strings.Trim(s, " -")` (both cutset characters, both ends). -/
def trimDashSpace (cs : List Char) : List Char :=
  let cut := fun c => c = ' ' || c = '-'
  ((cs.dropWhile cut).reverse.dropWhile cut).reverse

/-- Value of a decimal digit string.  `strconv.Atoi` on a `\d+` capture:
the parse can only fail by overflowing a 64-bit `int`, in which case Go
returns the clamped maximum (the error is discarded at every call site in
`src/subject.go`). -/
def atoiClamp (ds : List Char) : Nat :=
  min (ds.foldl (fun acc c => acc * 10 + (c.toNat - '0'.toNat)) 0) (2 ^ 63 - 1)

/-- Maximal leading run of ASCII digits (`\d+`, greedy); `none` if empty. -/
def takeDigits : List Char → Option (List Char × List Char)
  | cs =>
    let ds := cs.takeWhile isDigitCh
    if ds.isEmpty then none else some (ds, cs.dropWhile isDigitCh)

/-- Greedy literal-space run ` *`. -/
def dropSpaces (cs : List Char) : List Char := cs.dropWhile (· = ' ')

def hasNewline (cs : List Char) : Bool := cs.contains '\n'

/-- Suffix after the last `'\n'` (the whole list when there is none).
An unanchored `$`-ending RE2 pattern whose atoms cannot match `'\n'`
can only match inside this suffix. -/
def lastLine (cs : List Char) : List Char :=
  (cs.reverse.takeWhile (· ≠ '\n')).reverse

/-! ## The number-pair pattern of `src/subject.go` line 37

`(?i)(?:(?P<remainder>.*?) *(?:(?P<files>(?:"?\[|[<[]? *)(?P<file>\d+) */ *`
`(?P<totalfiles>\d+) *(?:\]"?|[>\]])?)|(?P<segments>"?\((?P<segment>\d+) */ *`
`(?P<totalsegments>\d+)\)"?))|.*$)`

applied with `FindAllStringSubmatch`. -/

/-- One number pair as captured by the pattern: the digit strings of the two
`\d+` groups.  Both the `files` and the `segments` named groups contain a
`\d+`, so the Go-side test `matches[i]["files"] != ""` is exactly "the
`files` alternative matched", which is what the constructor records. -/
inductive Pair1 where
  | files (d1 d2 : List Char)
  | segs (d1 d2 : List Char)
deriving DecidableEq, Repr

/-- One entry of `findAllNamedMatches` for the line-37 pattern: the
`remainder` capture (empty list = unset, as the Go helper stores `""` for an
unmatched group) and the pair alternative that matched, if any (`none` for a
match through the trailing `.*$` alternative, where every named group is
unset). -/
structure Match1 where
  remainder : List Char
  pair : Option Pair1
deriving DecidableEq, Repr

/-- The tail `(?P<file>\d+) */ *(?P<totalfiles>\d+) *(?:\]"?|[>\]])?` of the
`files` group, after its opening bracket alternative: digits, spaces, slash,
spaces, digits, spaces, then the optional greedy closer. -/
def filesTail (cs : List Char) : Option (List Char × List Char × List Char) := do
  let (d1, cs) ← takeDigits cs
  let cs := dropSpaces cs
  let cs ← match cs with | '/' :: r => some r | _ => none
  let (d2, cs) ← takeDigits (dropSpaces cs)
  let cs := dropSpaces cs
  let cs := match cs with
    | ']' :: '"' :: r => r
    | ']' :: r => r
    | '>' :: r => r
    | _ => cs
  return (d1, d2, cs)

/-- The `files` group `(?:"?\[|[<[]? *)(?P<file>\d+) ...` at a fixed
position.  The opening alternatives, in the engine's preference order:
`"` `[`; `[`; `<` or `[` followed by spaces; just spaces. -/
def matchFilesAt (cs : List Char) : Option (List Char × List Char × List Char) :=
  (match cs with
    | '"' :: '[' :: r => filesTail r
    | _ => none).orElse fun _ =>
  (match cs with
    | '[' :: r => filesTail r
    | _ => none).orElse fun _ =>
  (match cs with
    | c :: r => if c = '<' || c = '[' then filesTail (dropSpaces r) else none
    | [] => none).orElse fun _ =>
  filesTail (dropSpaces cs)

/-- The `segments` group `"?\((?P<segment>\d+) */ *(?P<totalsegments>\d+)\)"?`
at a fixed position. -/
def matchSegsAt (cs : List Char) : Option (List Char × List Char × List Char) := do
  let cs := match cs with | '"' :: r => r | _ => cs
  let cs ← match cs with | '(' :: r => some r | _ => none
  let (d1, cs) ← takeDigits cs
  let cs := dropSpaces cs
  let cs ← match cs with | '/' :: r => some r | _ => none
  let (d2, cs) ← takeDigits (dropSpaces cs)
  let cs ← match cs with | ')' :: r => some r | _ => none
  let cs := match cs with | '"' :: r => r | _ => cs
  return (d1, d2, cs)

/-- The alternation `(?:files|segments)` at a fixed position, `files` first. -/
def pairAt (cs : List Char) : Option (Pair1 × List Char) :=
  (match matchFilesAt cs with
    | some (d1, d2, r) => some (Pair1.files d1 d2, r)
    | none => none).orElse fun _ =>
  (match matchSegsAt cs with
    | some (d1, d2, r) => some (Pair1.segs d1 d2, r)
    | none => none)

/-- Try the ` *(?:files|segments)` part with the greedy space run backtracking
from longest to shortest (`i + 1` spaces consumed first, then fewer); at each
landing position the `files` alternative is preferred over `segments`. -/
def pairAfterSpacesFrom (cs : List Char) : Nat → Option (Pair1 × List Char)
  | 0 => pairAt cs
  | i + 1 => (pairAt (cs.drop (i + 1))).orElse fun _ => pairAfterSpacesFrom cs i

def tryPairAfterSpaces (cs : List Char) : Option (Pair1 × List Char) :=
  pairAfterSpacesFrom cs ((cs.takeWhile (· = ' ')).length)

/-- Scan for the first alternative `(?P<remainder>.*?) *(?:files|segments)`
anchored at the current position: the lazy `remainder` grows one character at
a time (it cannot cross `'\n'`, which `.` does not match); at each length the
space run and a pair are tried.  Returns the `remainder` capture, the pair
and the rest after the match. -/
def findPairInLine (acc cs : List Char) : Option (List Char × Pair1 × List Char) :=
  match tryPairAfterSpaces cs with
  | some (p, rest) => some (acc.reverse, p, rest)
  | none =>
    match cs with
    | [] => none
    | c :: cs' => if c = '\n' then none else findPairInLine (c :: acc) cs'

/-- One `doExecute` step for the line-37 pattern: the leftmost match starting
at or after the head of `cs`.  A start position can match either through the
pair-bearing first alternative (confined to its line, since neither `.*?` nor
the pair atoms match `'\n'`) or through `.*$` (which requires no `'\n'` up to
the end of the text); start positions on a pairless non-final line therefore
match nothing and are skipped.  Returns the match, the rest of the input
after it, and whether the match was nonempty. -/
def r1Search (fuel : Nat) (cs : List Char) : Match1 × List Char × Bool :=
  match fuel with
  | 0 => (⟨[], none⟩, [], false)
  | fuel + 1 =>
    match findPairInLine [] cs with
    | some (rem, p, rest) => (⟨rem, some p⟩, rest, true)
    | none =>
      if hasNewline cs then
        r1Search fuel ((cs.dropWhile (· ≠ '\n')).tail)
      else
        (⟨[], none⟩, [], !cs.isEmpty)

/-- `FindAllStringSubmatch` for the line-37 pattern, with Go's rule that an
empty match at the end position of the previous match is not delivered (the
only possible empty match of this pattern is `.*$` at the end of the text). -/
def regex1All (fuel : Nat) (cs : List Char) : List Match1 :=
  match fuel with
  | 0 => []
  | fuel + 1 =>
    let (m, rest, ne) := r1Search (cs.length + 1) cs
    if ne then m :: (if rest.isEmpty then [] else regex1All fuel rest)
    else [m]

/-! ## The match loop of `src/subject.go` lines 39-99 -/

/-- The four numeric fields of the subject being built, plus the
`foundNumbers` flag. -/
structure NumSt where
  File : Nat
  TotalFiles : Nat
  Segment : Nat
  TotalSegments : Nat
  found : Bool
deriving DecidableEq, Repr

def numInit : NumSt := ⟨0, 0, 0, 0, false⟩

/-- Body of the `for counter := len(matches) - 1; ...` loop (lines 42-91),
for one match. -/
def numStep (st : NumSt) (m : Match1) : NumSt :=
  if st.File = 0 ∧ st.Segment = 0 then
    match m.pair with
    | some (.files d1 d2) =>
      { st with found := true, File := atoiClamp d1, TotalFiles := atoiClamp d2 }
    | some (.segs d1 d2) =>
      { st with found := true, Segment := atoiClamp d1, TotalSegments := atoiClamp d2 }
    | none => st
  else if st.TotalFiles = 0 ∨ st.TotalSegments = 0 then
    match m.pair with
    | some (.files d1 d2) =>
      let st := { st with found := true }
      let st := if st.TotalFiles ≠ 0 then
          { st with Segment := st.File, TotalSegments := st.TotalFiles } else st
      if st.TotalSegments = 0 then
        { st with Segment := atoiClamp d1, TotalSegments := atoiClamp d2 }
      else
        { st with File := atoiClamp d1, TotalFiles := atoiClamp d2 }
    | some (.segs d1 d2) =>
      let st := { st with found := true }
      if st.TotalSegments ≠ 0 then
        { st with File := atoiClamp d1, TotalFiles := atoiClamp d2 }
      else
        { st with Segment := atoiClamp d1, TotalSegments := atoiClamp d2 }
    | none => st
  else st

/-- The loop runs from the last match down to the first. -/
def numLoop (ms : List Match1) : NumSt := ms.reverse.foldl numStep numInit

/-- Lines 93-95: `remainder = TrimSpace(remainder + " " + TrimSpace(m))`,
joined in original order. -/
def joinRem (ms : List Match1) : List Char :=
  ms.foldl (fun acc m => trimSpace (acc ++ ' ' :: trimSpace m.remainder)) []

/-- Lines 24-103: trim the subject, run the pattern, fold the matches,
rebuild the remainder (falling back to the full subject when no numbers were
found and the joined remainder is blank, lines 96-99, or when there was no
match at all, lines 100-103). -/
def numbersStage (s : String) : NumSt × List Char :=
  let subj := trimSpace s.toList
  let ms := regex1All (subj.length + 1) subj
  if ms.isEmpty then (numInit, subj)
  else
    let st := numLoop ms
    let rem := joinRem ms
    (st, if st.found = false ∧ trimSpace rem = [] then subj else rem)

/-! ## The "x of y" fallback pattern of `src/subject.go` line 113

`(?i)(?:(?P<remainder1>.*?) *(?P<files>(?:\[|[<[]? *(?:file|datei)?) *`
`(?P<file>\d+) *(?:of|von) *(?P<totalfiles>\d+) *(?:\]|[>\]])?)(?P<remainder2>.*$))`

Only `matches[0]` is consumed.  Because `remainder2` is `.*$` and no atom of
the pattern matches `'\n'`, a match must lie entirely inside the last line of
the input. -/

/-- Consume a literal of the pattern case-insensitively, returning the input
characters consumed and the rest. -/
def foldLit : List Char → List Char → Option (List Char × List Char)
  | [], cs => some ([], cs)
  | _ :: _, [] => none
  | p :: ps, c :: cs =>
    if foldChar c = p then (foldLit ps cs).map (fun kr => (c :: kr.1, kr.2)) else none

/-- The ` *(?P<file>\d+) *(?:of|von) *(?P<totalfiles>\d+) *(?:\]|[>\]])?` tail. -/
def ofTail (cs : List Char) : Option (List Char × List Char × List Char) := do
  let (d1, cs) ← takeDigits (dropSpaces cs)
  let cs := dropSpaces cs
  let (_, cs) ← (foldLit ['o', 'f'] cs).orElse fun _ => foldLit ['v', 'o', 'n'] cs
  let (d2, cs) ← takeDigits (dropSpaces cs)
  let cs := dropSpaces cs
  let cs := match cs with
    | ']' :: r => r
    | '>' :: r => r
    | _ => cs
  return (d1, d2, cs)

/-- Opener alternative `[<[]? *(?:file|datei)?` followed by the tail, with the
engine's preference order (literal consumed first, then without). -/
def ofTailLit (cs : List Char) : Option (List Char × List Char × List Char) :=
  (match foldLit ['f', 'i', 'l', 'e'] cs with
    | some (_, r) => ofTail r
    | none => none).orElse fun _ =>
  (match foldLit ['d', 'a', 't', 'e', 'i'] cs with
    | some (_, r) => ofTail r
    | none => none).orElse fun _ =>
  ofTail cs

/-- The `files` group of the line-113 pattern at a fixed position:
`(?:\[|[<[]? *(?:file|datei)?)` then the tail. -/
def matchOfAt (cs : List Char) : Option (List Char × List Char × List Char) :=
  (match cs with
    | '[' :: r => ofTail r
    | _ => none).orElse fun _ =>
  (match cs with
    | c :: r => if c = '<' || c = '[' then ofTailLit (dropSpaces r) else none
    | [] => none).orElse fun _ =>
  ofTailLit (dropSpaces cs)

/-- The ` *` before the `files` group, greedy, from `i` spaces down to 0. -/
def ofAfterSpacesFrom (cs : List Char) : Nat → Option (List Char × List Char × List Char)
  | 0 => matchOfAt cs
  | i + 1 => (matchOfAt (cs.drop (i + 1))).orElse fun _ => ofAfterSpacesFrom cs i

def tryOfAfterSpaces (cs : List Char) : Option (List Char × List Char × List Char) :=
  ofAfterSpacesFrom cs ((cs.takeWhile (· = ' ')).length)

/-- Lazy growth of `remainder1` inside the line. -/
def findOfInLine (acc cs : List Char) :
    Option (List Char × List Char × List Char × List Char) :=
  match tryOfAfterSpaces cs with
  | some (d1, d2, rest) => some (acc.reverse, d1, d2, rest)
  | none =>
    match cs with
    | [] => none
    | c :: cs' => if c = '\n' then none else findOfInLine (c :: acc) cs'

/-- First match of the line-113 pattern: `(remainder1, file, totalfiles,
remainder2)` captures, confined to the last line. -/
def regex2Find (cs : List Char) :
    Option (List Char × List Char × List Char × List Char) :=
  findOfInLine [] (lastLine cs)

/-! ## Defaults, `src/subject.go` lines 104-124 -/

/-- Lines 104-124: the single-segment default, then the file numbers from the
"x of y" fallback or the single-file default.  Returns the updated state and
the remainder (rebuilt from `remainder1`/`remainder2` when the fallback
matched, line 118). -/
def stageB (st : NumSt) (rem : List Char) : NumSt × List Char :=
  let st := if st.TotalSegments = 0 then
    { st with Segment := 1, TotalSegments := 1 } else st
  if st.TotalFiles = 0 then
    match regex2Find rem with
    | some (r1, d1, d2, r2) =>
      ({ st with File := atoiClamp d1, TotalFiles := atoiClamp d2 },
       trimSpace (trimSpace r1 ++ ' ' :: trimSpace r2))
    | none => ({ st with File := 1, TotalFiles := 1 }, rem)
  else (st, rem)

/-! ## Extension shapes

The extension sub-pattern shared (with small variations) by the patterns at
`src/subject.go` lines 130, 138, 160 and 240:
`(?:vol\d+\+\d+\.par2?|part\d+\.[^ "\.]*|[^ "\.]*\.\d+|[^ "\.]*)`,
optionally prefixed by `(?:7z\.)?`.  What must follow the extension differs
per pattern, so the follower is a parameter. -/

/-- What has to follow the extension: the closing `"+` of the quoted-filename
patterns (lines 130 and 240), the `(?:[" ]|$)` of the unquoted pattern
(line 138, whose delimiter character is part of the `filename` group), or the
`$` anchor (line 160). -/
inductive ExtFollow where
  | quotes
  | delimOrEnd
  | endOnly
deriving DecidableEq, Repr

/-- Try the follower; returns the characters it contributes to the `filename`
group and the rest. -/
def followCheck : ExtFollow → List Char → Option (List Char × List Char)
  | .quotes, cs =>
    match cs with
    | '"' :: r => some ([], r.dropWhile (· = '"'))
    | _ => none
  | .delimOrEnd, cs =>
    match cs with
    | [] => some ([], [])
    | c :: r => if c = '"' || c = ' ' then some ([c], r) else none
  | .endOnly, cs =>
    match cs with
    | [] => some ([], [])
    | _ => none

/-- Greedy run of the class `[^ "\.]`. -/
def extRun (cs : List Char) : List Char × List Char :=
  (cs.takeWhile (fun c => !(c = ' ' || c = '"' || c = '.')),
   cs.dropWhile (fun c => !(c = ' ' || c = '"' || c = '.')))

/-- Alternative `vol\d+\+\d+\.par2?` (the optional `2` is preferred). -/
def extVol (t : ExtFollow) (cs : List Char) : Option (List Char × List Char × List Char) := do
  let (v, cs) ← foldLit ['v', 'o', 'l'] cs
  let (d1, cs) ← takeDigits cs
  let cs ← match cs with | '+' :: r => some r | _ => none
  let (d2, cs) ← takeDigits cs
  let cs ← match cs with | '.' :: r => some r | _ => none
  let (p, cs) ← foldLit ['p', 'a', 'r'] cs
  let base := v ++ d1 ++ '+' :: (d2 ++ '.' :: p)
  (match cs with
    | '2' :: r => (followCheck t r).map
        (fun (dr : List Char × List Char) => (base ++ ['2'], dr.1, dr.2))
    | _ => none).orElse fun _ =>
    (followCheck t cs).map (fun (dr : List Char × List Char) => (base, dr.1, dr.2))

/-- Alternative `part\d+\.[^ "\.]*`. -/
def extPart (t : ExtFollow) (cs : List Char) : Option (List Char × List Char × List Char) := do
  let (p, cs) ← foldLit ['p', 'a', 'r', 't'] cs
  let (d, cs) ← takeDigits cs
  let cs ← match cs with | '.' :: r => some r | _ => none
  let (run, cs) := extRun cs
  let (dl, rest) ← followCheck t cs
  return (p ++ d ++ '.' :: run, dl, rest)

/-- Alternative `[^ "\.]*\.\d+`. -/
def extRunDotDigits (t : ExtFollow) (cs : List Char) :
    Option (List Char × List Char × List Char) := do
  let (run, cs) := extRun cs
  let cs ← match cs with | '.' :: r => some r | _ => none
  let (d, cs) ← takeDigits cs
  let (dl, rest) ← followCheck t cs
  return (run ++ '.' :: d, dl, rest)

/-- Alternative `[^ "\.]*` (line 160 has the lazy `[^ "\.]*?$`, which accepts
exactly the same strings before its anchor). -/
def extBare (t : ExtFollow) (cs : List Char) : Option (List Char × List Char × List Char) := do
  let (run, cs) := extRun cs
  let (dl, rest) ← followCheck t cs
  return (run, dl, rest)

/-- The four alternatives in the pattern's order. -/
def extAlts (t : ExtFollow) (cs : List Char) : Option (List Char × List Char × List Char) :=
  (extVol t cs).orElse fun _ =>
  (extPart t cs).orElse fun _ =>
  (extRunDotDigits t cs).orElse fun _ => extBare t cs

/-- The optional `(?:7z\.)?` prefix (present preferred), then the alternatives. -/
def extWith7z (t : ExtFollow) (cs : List Char) : Option (List Char × List Char × List Char) :=
  (match foldLit ['7', 'z', '.'] cs with
    | some (k, r) => (extAlts t r).map
        (fun (e : List Char × List Char × List Char) => (k ++ e.1, e.2.1, e.2.2))
    | none => none).orElse fun _ => extAlts t cs

/-! ## Quoted filename pattern, `src/subject.go` line 130

`(?i)^(?P<header>.*?)?[- ]*"+(?P<filename>(?P<basefilename>.*?)`
`(?:\.(?P<extension>(?:7z\.)?(?:vol…|part…|…)))?)"+` -/

/-- Scan the interior after the opening quotes: the lazy `basefilename` grows
one character at a time; at a `.` the optional extension group (preferred) is
tried followed by the closing `"+`; at a `"` the extension group is absent and
the quotes close.  Neither `.*?` crosses `'\n'`.  Returns `(filename,
basefilename)`. -/
def r3Content (acc cs : List Char) : Option (List Char × List Char) :=
  match cs with
  | [] => none
  | '"' :: _ => some (acc.reverse, acc.reverse)
  | '.' :: r =>
    match extWith7z .quotes r with
    | some (ext, _, _) => some (acc.reverse ++ '.' :: ext, acc.reverse)
    | none => r3Content ('.' :: acc) r
  | c :: r => if c = '\n' then none else r3Content (c :: acc) r

/-- The greedy opening `"+` backtracks from all `q` quotes down to one. -/
def r3TryQuotes (atQuotes : List Char) : Nat → Option (List Char × List Char)
  | 0 => none
  | qc + 1 => (r3Content [] (atQuotes.drop (qc + 1))).orElse fun _ =>
      r3TryQuotes atQuotes qc

/-- Anchored search: the lazy `header` grows from the start; after it the
greedy `[- ]*` run and at least one quote must follow, then the interior.
Returns the raw `(header, filename, basefilename)` captures. -/
def r3Find (acc cs : List Char) : Option (List Char × List Char × List Char) :=
  let attempt :=
    let afterDS := cs.dropWhile (fun c => c = '-' || c = ' ')
    let q := (afterDS.takeWhile (· = '"')).length
    if q = 0 then none else r3TryQuotes afterDS q
  match attempt with
  | some (f, b) => some (acc.reverse, f, b)
  | none =>
    match cs with
    | [] => none
    | c :: r => if c = '\n' then none else r3Find (c :: acc) r

/-! ## Unquoted filename pattern, `src/subject.go` line 138

`(?i)^(?P<filename>(?P<basefilename>.*?)\.(?P<extension>(?:vol…|part…|…))`
`(?:[" ]|$))` — no `7z.` prefix here, and the delimiter character belongs to
the `filename` group. -/

def r4Find (acc cs : List Char) : Option (List Char × List Char) :=
  match cs with
  | [] => none
  | '.' :: r =>
    match extAlts .delimOrEnd r with
    | some (ext, dl, _) => some (acc.reverse ++ '.' :: (ext ++ dl), acc.reverse)
    | none => r4Find ('.' :: acc) r
  | c :: r => if c = '\n' then none else r4Find (c :: acc) r

/-! ## Components of the disambiguation passes, `src/subject.go` lines 152-218 -/

/-- The quoted-span pattern `"([^\"]+)"` of lines 156 and 188, applied with
`FindAllStringSubmatch`: non-overlapping `"…"` spans with nonempty interior;
on a failed start the engine advances past the opening quote. -/
def quotedSpans (fuel : Nat) (cs : List Char) : List (List Char) :=
  match fuel with
  | 0 => []
  | fuel + 1 =>
    match cs with
    | [] => []
    | '"' :: r =>
      let content := r.takeWhile (· ≠ '"')
      let rest := r.dropWhile (· ≠ '"')
      if content.isEmpty then quotedSpans fuel r
      else
        match rest with
        | '"' :: r2 => content :: quotedSpans fuel r2
        | _ => quotedSpans fuel r
    | _ :: r => quotedSpans fuel r

/-- The line-160 pattern `(?i)^(?P<basefilename>.*?)\.(?:7z\.)?(?:vol…|part…|`
`[^ "\.]*\.\d+|[^ "\.]*?)$` applied with `FindStringSubmatch`: returns the
`basefilename` capture when the candidate has a dot followed by a valid
extension shape reaching the end. -/
def re160Find (acc cs : List Char) : Option (List Char) :=
  match cs with
  | [] => none
  | '.' :: r =>
    match extWith7z .endOnly r with
    | some _ => some acc.reverse
    | none => re160Find ('.' :: acc) r
  | c :: r => if c = '\n' then none else re160Find (c :: acc) r

/-- Tail test for the line-203 pattern's extension list:
`(?:vol\d+\+\d+\.par2|par2|part\d+\.rar|r\d{2}|rar|nfo|sfv|zip|7z|mp4|mkv|`
`avi|mov|mp3|flac|m4a|jpg|jpeg|png|gif|pdf|txt)` anchored at the end. -/
def candExtTail (cs : List Char) : Bool :=
  (match (do
    let (_, cs) ← foldLit ['v', 'o', 'l'] cs
    let (_, cs) ← takeDigits cs
    let cs ← match cs with | '+' :: r => some r | _ => none
    let (_, cs) ← takeDigits cs
    let cs ← match cs with | '.' :: r => some r | _ => none
    let (_, cs) ← foldLit ['p', 'a', 'r', '2'] cs
    if cs.isEmpty then some () else none : Option Unit) with
   | some _ => true | none => false) ||
  (match (do
    let (_, cs) ← foldLit ['p', 'a', 'r', 't'] cs
    let (_, cs) ← takeDigits cs
    let cs ← match cs with | '.' :: r => some r | _ => none
    let (_, cs) ← foldLit ['r', 'a', 'r'] cs
    if cs.isEmpty then some () else none : Option Unit) with
   | some _ => true | none => false) ||
  (match cs with
   | [r, d1, d2] => foldChar r = 'r' && isDigitCh d1 && isDigitCh d2
   | _ => false) ||
  (["par2", "rar", "nfo", "sfv", "zip", "7z", "mp4", "mkv", "avi", "mov", "mp3",
    "flac", "m4a", "jpg", "jpeg", "png", "gif", "pdf", "txt"].any
    (fun w => eqFoldList cs w.toList))

/-- The line-203 pattern `^(?P<base>.+?)\.(?P<ext>…)$`: the lazy `base` needs
at least one character; returns the `base` capture. -/
def candFind (cs : List Char) : Option (List Char) :=
  match cs with
  | [] => none
  | c0 :: rest => if c0 = '\n' then none else candGo [c0] rest
where
  candGo (acc cs : List Char) : Option (List Char) :=
    match cs with
    | [] => none
    | '.' :: r => if candExtTail r then some acc.reverse else candGo ('.' :: acc) r
    | c :: r => if c = '\n' then none else candGo (c :: acc) r

/-- The known-extension set of `src/subject.go` line 198 (keys of the Go map). -/
def knownExts : List (List Char) :=
  ["rar", "r00", "r01", "r02", "par2", "nfo", "sfv", "zip", "7z", "mp4", "mkv",
   "avi", "mov", "mp3", "flac", "m4a", "jpg", "jpeg", "png", "gif", "pdf",
   "txt", "r03", "r04", "r05"].map String.toList

/-- Line 201: `regexp.MustCompile("(?i)r\\d{2}$").MatchString(curExt)` — an
unanchored search that can only succeed on the final three characters. -/
def rddSuffix (cs : List Char) : Bool :=
  match cs.reverse with
  | d2 :: d1 :: r :: _ => isDigitCh d2 && isDigitCh d1 && foldChar r = 'r'
  | _ => false

/-- Line 193-197: the substring after the last `.` of the current filename,
lower-cased; empty when there is no dot. -/
def curExtOf (f : List Char) : List Char :=
  if f.contains '.' then goToLower ((f.reverse.takeWhile (· ≠ '.')).reverse) else []

/-! ## The filename/header passes, `src/subject.go` lines 126-256 -/

/-- Lines 126-150: quoted filename, else unquoted filename with extension,
else (for a single-file post) the whole remainder.  Captures are trimmed of
`" -"` as in the source. -/
def splitterStep (rem : List Char) (totalFiles : Nat) :
    List Char × List Char × List Char :=
  match r3Find [] rem with
  | some (h, f, b) => (trimDashSpace h, trimDashSpace f, trimDashSpace b)
  | none =>
    match r4Find [] rem with
    | some (f, b) => ([], trimDashSpace f, trimDashSpace b)
    | none =>
      if totalFiles = 1 then ([], trimDashSpace rem, trimDashSpace rem)
      else ([], [], [])

/-- Loop of lines 161-182 over the quoted spans after the first. -/
def dualLoop (first : List Char) (cands : List (List Char))
    (h f b : List Char) : List Char × List Char × List Char :=
  match cands with
  | [] => (h, f, b)
  | c :: cs =>
    let cand := trimSpace c
    match re160Find [] cand with
    | some base =>
      ((if h = [] then trimDashSpace first else h), cand, trimDashSpace base)
    | none => dualLoop first cs h f b

/-- Lines 152-184: when the captured filename has no extension and the
remainder holds several quoted spans, promote a later span that parses as a
filename-with-extension. -/
def dualStep (rem : List Char) (t : List Char × List Char × List Char) :
    List Char × List Char × List Char :=
  if t.2.1 ≠ [] ∧ t.2.1 = t.2.2 then
    let spans := quotedSpans (rem.length + 1) rem
    if spans.length > 1 then dualLoop spans.headI spans.tail t.1 t.2.1 t.2.2
    else t
  else t

/-- Loop of lines 204-215 over the quoted spans after the first. -/
def refinerLoop (first : List Char) (cands : List (List Char))
    (h f b : List Char) : List Char × List Char × List Char :=
  match cands with
  | [] => (h, f, b)
  | c :: cs =>
    let cand := trimSpace c
    match candFind cand with
    | some base =>
      ((if h = [] ∨ h = b ∨ eqFoldList h f then trimDashSpace first else h),
       cand, trimDashSpace base)
    | none => refinerLoop first cs h f b

/-- Lines 186-218: when the current extension is neither in the known set nor
a dynamic `rNN` archive part, re-pick from a later quoted span with a real
extension. -/
def refinerStep (rem : List Char) (t : List Char × List Char × List Char) :
    List Char × List Char × List Char :=
  if t.2.1 ≠ [] then
    let spans := quotedSpans (rem.length + 1) rem
    if spans.length > 1 then
      let curExt := curExtOf t.2.1
      if ¬(knownExts.contains curExt) ∧ ¬(rddSuffix curExt = true) then
        refinerLoop spans.headI spans.tail t.1 t.2.1 t.2.2
      else t
    else t
  else t

/-- Lines 220-223: backfill the header from the base filename. -/
def backfillStep (t : List Char × List Char × List Char) :
    List Char × List Char × List Char :=
  if t.1 = [] ∧ t.2.2 ≠ [] then (t.2.2, t.2.1, t.2.2) else t

/-! ## Leading-bracket fallback, `src/subject.go` lines 225-256 -/

/-- One repetition ` *(?:"?\[|[<[]?)\d+ */ *\d+ *(?:\]"?|[>\]])?` of the
line-227 pattern (the tail after the opener has the same shape as in the
line-37 pattern, so `filesTail` is reused). -/
def repOne (cs : List Char) : Option (List Char) :=
  let cs := dropSpaces cs
  let tl := fun r => (filesTail r).map (fun x => x.2.2)
  (match cs with
    | '"' :: '[' :: r => tl r
    | _ => none).orElse fun _ =>
  (match cs with
    | '[' :: r => tl r
    | _ => none).orElse fun _ =>
  (match cs with
    | c :: r => if c = '<' || c = '[' then tl r else none
    | [] => none).orElse fun _ =>
  tl cs

def repsParse (fuel : Nat) (cs : List Char) (n : Nat) : List Char × Nat :=
  match fuel with
  | 0 => (cs, n)
  | fuel + 1 =>
    match repOne cs with
    | some rest => repsParse fuel rest (n + 1)
    | none => (cs, n)

/-- The line-227 pattern `^(?: *(?:"?\[|[<[]?)\d+ */ *\d+ *(?:\]"?|[>\]])?)+ *`
`(?P<tail>.*)$` on the full subject: at least one leading bracket pair, then
the tail to the end of the text (`$` and `.` force a newline-free subject).
Returns the trimmed tail as consumed at line 238. -/
def leadBracketsFind (subj : List Char) : Option (List Char) :=
  if hasNewline subj then none
  else
    let rn := repsParse (subj.length + 1) subj 0
    if rn.2 = 0 then none else some (trimSpace rn.1)

/-- The line-240 pattern `"+(?P<filename>(?P<basefilename>.*?)(?:\.(?P<ext>…`
`))?)"+`, unanchored `FindStringSubmatch`: leftmost quote run, with the
greedy `"+` backtracking, then the same interior as the line-130 pattern. -/
def qFind (fuel : Nat) (cs : List Char) : Option (List Char × List Char) :=
  match fuel with
  | 0 => none
  | fuel + 1 =>
    match cs with
    | [] => none
    | '"' :: r =>
      let q := 1 + (r.takeWhile (· = '"')).length
      match r3TryQuotes ('"' :: r) q with
      | some fb => some fb
      | none => qFind fuel (r.dropWhile (· = '"'))
    | _ :: r => qFind fuel r

/-- Lines 225-256: when no filename was found, retry on the original subject
after stripping leading bracket pairs. -/
def fallbackStep (subj : List Char) (t : List Char × List Char × List Char) :
    List Char × List Char × List Char :=
  if t.2.1 = [] then
    match leadBracketsFind subj with
    | some tail =>
      match qFind (tail.length + 1) tail with
      | some (fn, bs) =>
        let b' := trimDashSpace bs
        ((if t.1 = [] then b' else t.1), trimDashSpace fn, b')
      | none => t
    | none => t
  else t

/-- Lines 126-256 in order. -/
def nameStage (rem subj : List Char) (totalFiles : Nat) :
    List Char × List Char × List Char :=
  fallbackStep subj (backfillStep (refinerStep rem (dualStep rem
    (splitterStep rem totalFiles))))

/-! ## `ParseSubject`, `src/subject.go` lines 9-260 -/

/-- The `Subject` structure of `src/subject.go` lines 9-18.  The numeric
fields are Go `int`s that can only ever hold 0, 1 or a clamped `\d+` value,
all nonnegative, so they are carried as `Nat`. -/
structure Subject where
  Subject : String
  Header : String
  Filename : String
  Basefilename : String
  File : Nat
  TotalFiles : Nat
  Segment : Nat
  TotalSegments : Nat
deriving DecidableEq, Repr

/-- The body of `ParseSubject` (lines 21-258). -/
def parseSubjectCore (s : String) : Subject :=
  let subj := trimSpace s.toList
  let nr := numbersStage s
  let sr := stageB nr.1 nr.2
  let hfb := nameStage sr.2 subj sr.1.TotalFiles
  { Subject := String.mk subj
    Header := String.mk hfb.1
    Filename := String.mk hfb.2.1
    Basefilename := String.mk hfb.2.2
    File := sr.1.File
    TotalFiles := sr.1.TotalFiles
    Segment := sr.1.Segment
    TotalSegments := sr.1.TotalSegments }

/-- `ParseSubject` returns the structure and its error value; its single
return statement (line 258) is `return subject, nil`. -/
def ParseSubject (s : String) : Subject × Option String := (parseSubjectCore s, none)

/-! ## The NZB structures of `src/nzbparser.go` lines 27-72

XML-sourced integers (`date`, `bytes`, segment `number`) can hold arbitrary
decoded values and are carried as `Int`; the fields filled in only by
`ScanNzbFile` from `Subject` values keep that type's `Nat`. -/

structure NzbSegment where
  Bytes : Int
  Number : Int
  ID : String
deriving DecidableEq, Repr

structure NzbFile where
  Groups : List String
  Segments : List NzbSegment
  Poster : String
  Date : Int
  Subject : String
  Bytes : Int
  FileHash : String
  Number : Nat
  Filename : String
  Basefilename : String
  TotalSegments : Int
deriving DecidableEq, Repr

structure Nzb where
  Comment : String
  Meta : List (String × String)
  Files : List NzbFile
  TotalFiles : Int
  Segments : Nat
  TotalSegments : Int
  Bytes : Int
deriving DecidableEq, Repr

/-! ## `ScanNzbFile`, `src/nzbparser.go` lines 167-223

The Go loop updates each file in place from that file's own subject and
segments, and accumulates four totals; no per-file update depends on another
file, so the update is a `map` and the totals are folds over the same
per-file data.  `html.UnescapeString` is Go standard-library code outside
this repository, so it is a parameter. -/

/-- Per-file part of the loop body (lines 177-211).  The `err == nil` guard
is kept although `ParseSubject` always returns `nil`. -/
def scanFile (unescape : String → String) (file : NzbFile) : NzbFile :=
  let p := ParseSubject file.Subject
  let withSubject :=
    match p.2 with
    | none =>
      { file with
        Number := p.1.File
        Filename := if p.1.Filename ≠ "" then p.1.Filename else p.1.Header }
    | some _ => file
  let tfs0 : Int := match p.2 with | none => (p.1.TotalSegments : Int) | some _ => 0
  let totalFileSegments :=
    file.Segments.foldl (fun acc sg => if sg.Number > acc then sg.Number else acc) tfs0
  let totalFileBytes :=
    file.Segments.foldl (fun acc sg => acc + sg.Bytes) 0
  { withSubject with
    Segments := file.Segments.map (fun sg => { sg with ID := unescape sg.ID })
    TotalSegments := totalFileSegments
    Bytes := totalFileBytes }

/-- The value `nzb.Files[id].TotalSegments` gets for one file, reused for the
total-segments accumulator (line 209). -/
def fileTotalSegments (file : NzbFile) : Int :=
  let tfs0 : Int := match (ParseSubject file.Subject).2 with
    | none => ((ParseSubject file.Subject).1.TotalSegments : Int)
    | some _ => 0
  file.Segments.foldl (fun acc sg => if sg.Number > acc then sg.Number else acc) tfs0

/-- Lines 167-223. -/
def ScanNzbFile (unescape : String → String) (nzb : Nzb) : Nzb :=
  let totalFiles : Int := nzb.Files.foldl
    (fun acc f =>
      match (ParseSubject f.Subject).2 with
      | none =>
        if ((ParseSubject f.Subject).1.TotalFiles : Int) > acc then
          ((ParseSubject f.Subject).1.TotalFiles : Int)
        else acc
      | some _ => acc) 0
  { nzb with
    Files := nzb.Files.map (scanFile unescape)
    TotalFiles := if totalFiles < (nzb.Files.length : Int) then
        (nzb.Files.length : Int) else totalFiles
    Segments := nzb.Files.foldl (fun acc f => acc + f.Segments.length) 0
    TotalSegments := nzb.Files.foldl (fun acc f => acc + fileTotalSegments f) 0
    Bytes := nzb.Files.foldl
      (fun acc f => acc + f.Segments.foldl (fun a sg => a + sg.Bytes) 0) 0 }

/-! ## `MakeUnique`, `src/nzbparser.go` lines 225-258 -/

/-- The accumulation loop shared by both halves of `MakeUnique`: walk the
list, keep an element whose key is unseen, record its key. -/
def uniqBy (key : α → String) : List α → List String → List α
  | [], _ => []
  | x :: xs, seen =>
    if key x ∈ seen then uniqBy key xs seen
    else x :: uniqBy key xs (key x :: seen)

/-- Lines 225-258: keep the first occurrence of each file subject, then of
each segment ID within each kept file. -/
def MakeUnique (nzb : Nzb) : Nzb :=
  let files := uniqBy (fun f => f.Subject) nzb.Files []
  { nzb with
    Files := files.map (fun f =>
      { f with Segments := uniqBy (fun sg => sg.ID) f.Segments [] }) }

/-- Specification-side dedup: keep each list head and drop every later
element with the same key. -/
def firstOccsBy (key : α → String) : List α → List α
  | [] => []
  | x :: xs => x :: firstOccsBy key (xs.filter (fun y => key y ≠ key x))
termination_by l => l.length
decreasing_by
  simpa using Nat.lt_succ_of_le (List.length_filter_le _ xs)

/-! ## Helper lemmas -/

lemma stringMk_nil : String.mk [] = "" := rfl

lemma stringMk_eq_empty_iff {l : List Char} : String.mk l = "" ↔ l = [] := by
  constructor
  · intro h
    simpa using congrArg String.data h
  · intro h
    rw [h, stringMk_nil]

/-- A match that leaves `foundNumbers` false leaves the state unchanged:
every assigning branch of the loop body sets the flag. -/
lemma numStep_eq_of_found_eq_false {st : NumSt} {m : Match1}
    (h : (numStep st m).found = false) : numStep st m = st := by
  rcases hp : m.pair with _ | p
  · simp only [numStep, hp]
    split_ifs <;> rfl
  · by_cases h1 : st.File = 0 ∧ st.Segment = 0
    · exfalso
      have hf : (numStep st m).found = true := by
        simp only [numStep, hp, if_pos h1]
        rcases p with ⟨d1, d2⟩ | ⟨d1, d2⟩ <;> simp
      rw [hf] at h
      exact Bool.noConfusion h
    · by_cases h2 : st.TotalFiles = 0 ∨ st.TotalSegments = 0
      · exfalso
        have hf : (numStep st m).found = true := by
          simp only [numStep, hp, if_neg h1, if_pos h2]
          rcases p with ⟨d1, d2⟩ | ⟨d1, d2⟩ <;> (simp only; split_ifs <;> simp)
        rw [hf] at h
        exact Bool.noConfusion h
      · simp only [numStep, hp, if_neg h1, if_neg h2]

lemma foldl_numStep_eq_of_found_eq_false :
    ∀ (l : List Match1) (st : NumSt),
      (l.foldl numStep st).found = false → l.foldl numStep st = st
  | [], _, _ => rfl
  | x :: l, st, h => by
    simp only [List.foldl_cons] at h ⊢
    have h2 := foldl_numStep_eq_of_found_eq_false l (numStep st x) h
    rw [h2] at h ⊢
    exact numStep_eq_of_found_eq_false h

/-- When the line-37 scan found no number pair, the numeric state is the
all-zero initial state. -/
lemma numbersStage_eq_of_found_eq_false {s : String}
    (h : (numbersStage s).1.found = false) : (numbersStage s).1 = numInit := by
  simp only [numbersStage, numLoop] at h ⊢
  split_ifs at h ⊢ <;>
    first
      | rfl
      | exact foldl_numStep_eq_of_found_eq_false _ _ h

/-- After the defaulting pass, the total segment count is at least one:
line 104-109 overwrites a zero total, and the later passes never write it. -/
lemma stageB_totalSegments_pos (st : NumSt) (rem : List Char) :
    1 ≤ (stageB st rem).1.TotalSegments := by
  by_cases h1 : st.TotalSegments = 0 <;>
    by_cases h2 : st.TotalFiles = 0 <;>
      rcases hr : regex2Find rem with _ | ⟨r1, d1, d2, r2⟩ <;>
        (try simp [stageB, h1, h2, hr]) <;> omega

/-- `TotalSegments` of any parse result is at least one. -/
lemma parse_totalSegments_pos (s : String) : 1 ≤ (ParseSubject s).1.TotalSegments :=
  stageB_totalSegments_pos (numbersStage s).1 (numbersStage s).2

/-- Line 220-223 establishes "empty header forces empty base filename". -/
lemma backfillStep_header_base (t : List Char × List Char × List Char)
    (h : (backfillStep t).1 = []) : (backfillStep t).2.2 = [] := by
  unfold backfillStep at h ⊢
  split_ifs at h ⊢ with hc
  · exact absurd h hc.2
  · rcases not_and_or.mp hc with hc | hc
    · exact absurd h hc
    · exact not_not.mp hc

/-- The leading-bracket fallback (lines 225-256) preserves that property:
when it assigns a filename it backfills the header from the new base. -/
lemma fallbackStep_header_base (subj : List Char) (u : List Char × List Char × List Char)
    (hu : u.1 = [] → u.2.2 = []) (h : (fallbackStep subj u).1 = []) :
    (fallbackStep subj u).2.2 = [] := by
  by_cases hf : u.2.1 = []
  · rcases hlb : leadBracketsFind subj with _ | tail
    · have he : fallbackStep subj u = u := by
        unfold fallbackStep
        rw [if_pos hf]
        simp only [hlb]
      rw [he] at h ⊢
      exact hu h
    · rcases hq : qFind (tail.length + 1) tail with _ | ⟨fn, bs⟩
      · have he : fallbackStep subj u = u := by
          unfold fallbackStep
          rw [if_pos hf]
          simp only [hlb, hq]
        rw [he] at h ⊢
        exact hu h
      · have he : fallbackStep subj u =
            ((if u.1 = [] then trimDashSpace bs else u.1),
              trimDashSpace fn, trimDashSpace bs) := by
          unfold fallbackStep
          rw [if_pos hf]
          simp only [hlb, hq]
        rw [he] at h ⊢
        by_cases h1 : u.1 = []
        · rw [if_pos h1] at h
          exact h
        · rw [if_neg h1] at h
          exact absurd h h1
  · have he : fallbackStep subj u = u := by
      unfold fallbackStep
      rw [if_neg hf]
    rw [he] at h ⊢
    exact hu h

/-! ## Dedup lemmas for `MakeUnique` -/

lemma uniqBy_eq_firstOccsBy (key : α → String) :
    ∀ (l : List α) (seen : List String),
      uniqBy key l seen = firstOccsBy key (l.filter (fun y => decide (key y ∉ seen)))
  | [], seen => by simp [uniqBy, firstOccsBy]
  | x :: l, seen => by
    by_cases hx : key x ∈ seen
    · have hd : decide (key x ∉ seen) = false := by simp [hx]
      simp only [uniqBy, if_pos hx, List.filter_cons, hd]
      rw [uniqBy_eq_firstOccsBy key l seen]
      simp
    · have hd : decide (key x ∉ seen) = true := by simp [hx]
      simp only [uniqBy, if_neg hx, List.filter_cons, hd]
      rw [uniqBy_eq_firstOccsBy key l (key x :: seen)]
      simp only [if_true]
      rw [firstOccsBy]
      congr 1
      rw [List.filter_filter]
      have hfun : (fun y => decide (key y ∉ key x :: seen)) =
          (fun a => decide (key a ≠ key x) && decide (key a ∉ seen)) := by
        funext y
        by_cases hk1 : key y = key x <;> by_cases hk2 : key y ∈ seen <;>
          simp [hk1, hk2]
      rw [hfun]

lemma uniqBy_nil_seen (key : α → String) (l : List α) :
    uniqBy key l [] = firstOccsBy key l := by
  rw [uniqBy_eq_firstOccsBy]
  congr 1
  simp

lemma mem_firstOccsBy {key : α → String} :
    ∀ {l : List α} {x : α}, x ∈ firstOccsBy key l → x ∈ l
  | [], x, h => by simp [firstOccsBy] at h
  | a :: l, x, h => by
    rw [firstOccsBy] at h
    rcases List.mem_cons.mp h with h | h
    · exact h ▸ List.mem_cons_self a l
    · exact List.mem_cons_of_mem _ (List.mem_of_mem_filter (mem_firstOccsBy h))
termination_by l x _ => l.length
decreasing_by simpa using Nat.lt_succ_of_le (List.length_filter_le _ l)

lemma nodup_map_firstOccsBy (key : α → String) :
    ∀ l : List α, ((firstOccsBy key l).map key).Nodup
  | [] => by simp [firstOccsBy]
  | x :: l => by
    rw [firstOccsBy]
    simp only [List.map_cons, List.nodup_cons]
    refine ⟨?_, nodup_map_firstOccsBy key _⟩
    intro hmem
    rcases List.mem_map.mp hmem with ⟨y, hy, hkey⟩
    have hyf := List.of_mem_filter (mem_firstOccsBy hy)
    simp only [decide_eq_true_eq] at hyf
    exact hyf hkey
termination_by l => l.length
decreasing_by simpa using Nat.lt_succ_of_le (List.length_filter_le _ l)

/-! ## The claims -/

/-- C1: for the input `[1/2] Test Subject - "test.txt" yEnc (1/2)`,
`ParseSubject` returns a nil error with `Header = "Test Subject"`,
`Filename = "test.txt"`, `Basefilename = "test"`, `File = 1`,
`TotalFiles = 2`, `Segment = 1`, `TotalSegments = 2`. -/
theorem parseSubject_roundtrip_simple :
    ParseSubject "[1/2] Test Subject - \"test.txt\" yEnc (1/2)" =
      ({ Subject := "[1/2] Test Subject - \"test.txt\" yEnc (1/2)",
         Header := "Test Subject", Filename := "test.txt", Basefilename := "test",
         File := 1, TotalFiles := 2, Segment := 1, TotalSegments := 2 }, none) := by
  decide

/-- C4: for the input `[003/120] [03/140] "Release.Name.r03" yEnc`, the first
bracket pair gives the file numbers 3/120 and the second bracket pair is
reinterpreted as the segment numbers 3/140 by the same-shape shift rule. -/
theorem parseSubject_bracket_shift :
    (ParseSubject "[003/120] [03/140] \"Release.Name.r03\" yEnc").1.File = 3 ∧
      (ParseSubject "[003/120] [03/140] \"Release.Name.r03\" yEnc").1.TotalFiles = 120 ∧
      (ParseSubject "[003/120] [03/140] \"Release.Name.r03\" yEnc").1.Segment = 3 ∧
      (ParseSubject "[003/120] [03/140] \"Release.Name.r03\" yEnc").1.TotalSegments = 140 := by
  decide

/-- C5: for the input `[04/23] "Release.Name" - "release.name.r00" - yEnc(1/140)`
the later quoted span with the archive extension is promoted to the filename,
the first quote becomes the header, and the numbers are 4/23 and 1/140. -/
theorem parseSubject_dual_quote_promotion :
    (ParseSubject "[04/23] \"Release.Name\" - \"release.name.r00\" - yEnc(1/140)").1 =
      { Subject := "[04/23] \"Release.Name\" - \"release.name.r00\" - yEnc(1/140)",
        Header := "Release.Name", Filename := "release.name.r00",
        Basefilename := "release.name", File := 4, TotalFiles := 23,
        Segment := 1, TotalSegments := 140 } := by
  decide

/-- C7 (counterexample): the numeric fields of a parse result are not always
positive — on `[0/5] test` the parsed `File` is the explicit 0 of the
subject, which no later pass rewrites. -/
theorem numeric_fields_not_all_positive :
    (ParseSubject "[0/5] test").1.File = 0 := by
  decide

/-- C7 (amended): every parse result has `TotalSegments` at least 1 (the
line-104 default rewrites a zero total); the other three numeric fields are
nonnegative but may be 0 when the subject carries an explicit zero. -/
theorem parseSubject_totalSegments_ge_one (s : String) :
    1 ≤ (ParseSubject s).1.TotalSegments :=
  parse_totalSegments_pos s

/-- C6 (counterexample): no input embedding `(1/0)` — indeed no input at
all — yields `TotalSegments = 0`: the lines 104-109 default re-triggers on a
parsed zero total. -/
theorem totalSegments_zero_never_kept :
    ¬ ∃ pre post : String,
        (ParseSubject (pre ++ "(1/0)" ++ post)).1.TotalSegments = 0 := by
  rintro ⟨pre, post, h⟩
  have hp := parse_totalSegments_pos (pre ++ "(1/0)" ++ post)
  omega

/-- C6 (amended): a syntactically matched `(1/0)` pair is recognized by the
scan (the match loop records `Segment = 1`, `TotalSegments = 0`), but the
zero total re-triggers the `1/1` segment default, so the returned
`TotalSegments` is 1, not 0. -/
theorem totalSegments_zero_redefaults :
    (numbersStage "\"x.txt\" (1/0)").1 =
        { File := 0, TotalFiles := 0, Segment := 1, TotalSegments := 0, found := true } ∧
      (ParseSubject "\"x.txt\" (1/0)").1.Segment = 1 ∧
      (ParseSubject "\"x.txt\" (1/0)").1.TotalSegments = 1 := by
  decide

/-- C3: when no bracketed or parenthesized digit pair matched (the scan's
`foundNumbers` stayed false) and the "x of y" fallback does not match the
remainder, all four numeric fields are 1. -/
theorem parseSubject_defaults_no_numbering (s : String)
    (h1 : (numbersStage s).1.found = false)
    (h2 : regex2Find (numbersStage s).2 = none) :
    (ParseSubject s).1.File = 1 ∧ (ParseSubject s).1.TotalFiles = 1 ∧
      (ParseSubject s).1.Segment = 1 ∧ (ParseSubject s).1.TotalSegments = 1 := by
  have hst := numbersStage_eq_of_found_eq_false h1
  have hB : stageB (numbersStage s).1 (numbersStage s).2 =
      ({ File := 1, TotalFiles := 1, Segment := 1, TotalSegments := 1, found := false },
        (numbersStage s).2) := by
    rw [hst]
    simp [stageB, numInit, h2]
  simp [ParseSubject, parseSubjectCore, hB]

/-- C3 witness: `"hello world"` has no recognizable numbering, and all four
numeric fields of its parse are 1. -/
theorem parseSubject_defaults_no_numbering_witness :
    (numbersStage "hello world").1.found = false ∧
      regex2Find (numbersStage "hello world").2 = none ∧
      ((ParseSubject "hello world").1.File = 1 ∧
        (ParseSubject "hello world").1.TotalFiles = 1 ∧
        (ParseSubject "hello world").1.Segment = 1 ∧
        (ParseSubject "hello world").1.TotalSegments = 1) :=
  ⟨by decide, by decide,
    parseSubject_defaults_no_numbering "hello world" (by decide) (by decide)⟩

/-- C2: `ParseSubject` never returns an error — its error component is `none`
for every input — and when none of its patterns recognizes anything the
result is the fully-defaulted record: trimmed subject, empty text fields, and
1 in each numeric field. -/
theorem parseSubject_never_errors (s : String) :
    (ParseSubject s).2 = none ∧
      ((numbersStage s).1.found = false →
        regex2Find (numbersStage s).2 = none →
        r3Find [] (numbersStage s).2 = none →
        r4Find [] (numbersStage s).2 = none →
        trimDashSpace (numbersStage s).2 = [] →
        leadBracketsFind (trimSpace s.toList) = none →
        (ParseSubject s).1 =
          { Subject := String.mk (trimSpace s.toList), Header := "",
            Filename := "", Basefilename := "", File := 1, TotalFiles := 1,
            Segment := 1, TotalSegments := 1 }) := by
  refine ⟨rfl, ?_⟩
  intro h1 h2 h3 h4 h5 h6
  have hst := numbersStage_eq_of_found_eq_false h1
  have hB : stageB (numbersStage s).1 (numbersStage s).2 =
      ({ File := 1, TotalFiles := 1, Segment := 1, TotalSegments := 1, found := false },
        (numbersStage s).2) := by
    rw [hst]
    simp [stageB, numInit, h2]
  have h6' : leadBracketsFind (trimSpace s.data) = none := h6
  have hsp : splitterStep (numbersStage s).2 1 = ([], [], []) := by
    unfold splitterStep
    simp only [h3, h4, h5]
    simp
  have hname : nameStage (numbersStage s).2 (trimSpace s.data) 1 = ([], [], []) := by
    unfold nameStage
    rw [hsp]
    have hd : dualStep (numbersStage s).2 ([], [], []) = ([], [], []) := by
      unfold dualStep
      simp
    rw [hd]
    have hrf : refinerStep (numbersStage s).2 ([], [], []) = ([], [], []) := by
      unfold refinerStep
      simp
    rw [hrf]
    have hbf : backfillStep ([], [], []) = ([], [], []) := by
      unfold backfillStep
      simp
    rw [hbf]
    unfold fallbackStep
    simp [h6, h6']
  simp [ParseSubject, parseSubjectCore, String.toList, hB, hname, stringMk_nil]

/-- C2 witness: the empty input parses without error into the fully-defaulted
record. -/
theorem parseSubject_never_errors_witness :
    (ParseSubject "").2 = none ∧
      (ParseSubject "").1 =
        { Subject := String.mk (trimSpace "".toList), Header := "",
          Filename := "", Basefilename := "", File := 1, TotalFiles := 1,
          Segment := 1, TotalSegments := 1 } :=
  ⟨(parseSubject_never_errors "").1,
    (parseSubject_never_errors "").2 (by decide) (by decide) (by decide)
      (by decide) (by decide) (by decide)⟩

/-- C8: whenever the returned `Header` is empty, `Basefilename` is empty as
well — the backfill of lines 220-223 (and the one inside the leading-bracket
fallback) copies a nonempty base filename into an empty header. -/
theorem header_empty_implies_base_empty (s : String)
    (h : (ParseSubject s).1.Header = "") : (ParseSubject s).1.Basefilename = "" := by
  simp only [ParseSubject, parseSubjectCore, nameStage] at h ⊢
  rw [stringMk_eq_empty_iff] at h ⊢
  exact fallbackStep_header_base _ _ (backfillStep_header_base _) h

/-- C8 witness: `[0/5] test` parses with an empty header and an empty base
filename. -/
theorem header_empty_implies_base_empty_witness :
    (ParseSubject "[0/5] test").1.Header = "" ∧
      (ParseSubject "[0/5] test").1.Basefilename = "" :=
  ⟨by decide, header_empty_implies_base_empty "[0/5] test" (by decide)⟩

/-! ## Claims about `src/nzbparser.go` -/

lemma scanNzbFile_files_length (unescape : String → String) (nzb : Nzb) :
    (ScanNzbFile unescape nzb).Files.length = nzb.Files.length := by
  simp [ScanNzbFile]

/-- C9: `ScanNzbFile` sets each file's `Number` to the `File` parsed from
that file's subject, and its `Filename` to the parsed `Filename` when
nonempty, else to the parsed `Header`. -/
theorem scanNzbFile_number_filename (unescape : String → String) (nzb : Nzb)
    (i : Nat) (h : i < nzb.Files.length) :
    ((ScanNzbFile unescape nzb).Files.get
          ⟨i, by rw [scanNzbFile_files_length]; exact h⟩).Number =
        (ParseSubject (nzb.Files.get ⟨i, h⟩).Subject).1.File ∧
      ((ScanNzbFile unescape nzb).Files.get
          ⟨i, by rw [scanNzbFile_files_length]; exact h⟩).Filename =
        (if (ParseSubject (nzb.Files.get ⟨i, h⟩).Subject).1.Filename ≠ "" then
          (ParseSubject (nzb.Files.get ⟨i, h⟩).Subject).1.Filename
        else (ParseSubject (nzb.Files.get ⟨i, h⟩).Subject).1.Header) := by
  have hm : (ScanNzbFile unescape nzb).Files = nzb.Files.map (scanFile unescape) := rfl
  constructor <;>
    · simp only [hm, List.get_eq_getElem, List.getElem_map]
      simp [scanFile, ParseSubject]

def testNzbFile : NzbFile :=
  { Groups := [], Segments := [], Poster := "", Date := 0,
    Subject := "[1/3] \"a.txt\" yEnc (1/2)", Bytes := 0, FileHash := "",
    Number := 0, Filename := "", Basefilename := "", TotalSegments := 0 }

def testNzb : Nzb :=
  { Comment := "", Meta := [], Files := [testNzbFile],
    TotalFiles := 0, Segments := 0, TotalSegments := 0, Bytes := 0 }

/-- C9 witness: on a one-file NZB the scanned file's `Number` and `Filename`
come from its parsed subject. -/
theorem scanNzbFile_number_filename_witness :
    ((ScanNzbFile id testNzb).Files.get
          ⟨0, by rw [scanNzbFile_files_length]; exact by decide⟩).Number =
        (ParseSubject (testNzb.Files.get ⟨0, by decide⟩).Subject).1.File ∧
      ((ScanNzbFile id testNzb).Files.get
          ⟨0, by rw [scanNzbFile_files_length]; exact by decide⟩).Filename =
        (if (ParseSubject (testNzb.Files.get ⟨0, by decide⟩).Subject).1.Filename ≠ "" then
          (ParseSubject (testNzb.Files.get ⟨0, by decide⟩).Subject).1.Filename
        else (ParseSubject (testNzb.Files.get ⟨0, by decide⟩).Subject).1.Header) :=
  scanNzbFile_number_filename id testNzb 0 (by decide)

/-- C10: after `MakeUnique` the files are exactly the first occurrence of
each subject in their original order, each kept file's segments are exactly
the first occurrence of each segment ID in their original order, and the
resulting subjects (and, per file, segment IDs) are pairwise distinct. -/
theorem makeUnique_first_occurrences (nzb : Nzb) :
    (MakeUnique nzb).Files =
        (firstOccsBy (fun f => f.Subject) nzb.Files).map
          (fun f => { f with Segments := firstOccsBy (fun sg => sg.ID) f.Segments }) ∧
      ((MakeUnique nzb).Files.map (fun f => f.Subject)).Nodup ∧
      ∀ f ∈ (MakeUnique nzb).Files, (f.Segments.map (fun sg => sg.ID)).Nodup := by
  have hfs : (MakeUnique nzb).Files =
      (uniqBy (fun f => f.Subject) nzb.Files []).map
        (fun f => { f with Segments := uniqBy (fun sg => sg.ID) f.Segments [] }) := rfl
  have h1 : (MakeUnique nzb).Files =
      (firstOccsBy (fun f => f.Subject) nzb.Files).map
        (fun f => { f with Segments := firstOccsBy (fun sg => sg.ID) f.Segments }) := by
    rw [hfs, uniqBy_nil_seen]
    simp only [uniqBy_nil_seen]
  refine ⟨h1, ?_, ?_⟩
  · rw [h1, List.map_map]
    have : ((fun f : NzbFile => f.Subject) ∘
        (fun f => { f with Segments := firstOccsBy (fun sg => sg.ID) f.Segments })) =
        fun f : NzbFile => f.Subject := by
      funext f
      rfl
    rw [this]
    exact nodup_map_firstOccsBy _ _
  · intro f hf
    rw [h1] at hf
    rcases List.mem_map.mp hf with ⟨g, _, rfl⟩
    exact nodup_map_firstOccsBy (fun sg => sg.ID) g.Segments

end Nzbparser
